import Mathlib

/-!
Shallow embedding of the CDP (Chrome DevTools Protocol) driver module
`douyin_downloader/cdp.py` of the repository, together with theorems
checking the natural-language specification against it.

Conventions used throughout:
* Python strings are Lean `String`s; where the Python code calls string
  builtins (`str.join`, `str.startswith`, `str.lower`, `x in s`, `str(int)`),
  those builtins are modelled by explicit structurally recursive functions
  over `List Char` so that every definition evaluates by kernel reduction.
* Python numbers read from JSON are modelled as `ℚ` (every JSON number the
  program meets is a finite decimal); Python `int(float(x))` truncation
  toward zero becomes `Rat.num.tdiv Rat.den`.
* Fallible Python code (raising / try-except) is modelled with `Except`;
  external effects (liveness probes, process spawns, waits, kills,
  directory removals) are modelled by explicit oracles passed in as
  structures of functions, and the effects performed are returned as data.
-/

/-! ## Python string builtins, modelled over character lists -/

/-- Model of Python `s.startswith(pat)`: `startsWithChars s pat` is true iff
`pat` is an initial segment of `s`. -/
def startsWithChars : List Char → List Char → Bool
  | _, [] => true
  | [], _ :: _ => false
  | c :: cs, p :: ps => c == p && startsWithChars cs ps

/-- Model of Python `s.startswith(pat)` on `String`s. -/
def pyStartsWith (s pat : String) : Bool :=
  startsWithChars s.data pat.data

/-- Substring occurrence over character lists: true iff `pat` occurs
contiguously inside `cs`.  Models Python `pat in s`. -/
def containsSub (pat : List Char) : List Char → Bool
  | [] => startsWithChars [] pat
  | c :: rest => startsWithChars (c :: rest) pat || containsSub pat rest

/-- Model of Python `pat in s` (substring test) on `String`s. -/
def pyInStr (pat s : String) : Bool :=
  containsSub pat.data s.data

/-- Model of Python `s.lower()` (the strings the program lowercases are
ASCII mime types, on which `Char.toLower` agrees with Python). -/
def pyLower (s : String) : String :=
  String.mk (s.data.map Char.toLower)

/-- Model of Python `sep.join(fields)`. -/
def pyJoin (sep : String) : List String → String
  | [] => ""
  | [x] => x
  | x :: y :: rest => x ++ sep ++ pyJoin sep (y :: rest)

/-- Concatenation of a list of strings (successive `f.write` calls). -/
def pyConcat : List String → String
  | [] => ""
  | s :: rest => s ++ pyConcat rest

/-! ## Decimal representation of integers (model of Python `str(int)`) -/

/-- Accumulator loop producing the decimal digits of `n` (most significant
first) in front of `acc`; structural recursion on a fuel argument so the
definition evaluates by kernel reduction (any fuel of at least the digit
count gives the digits; callers pass `n` itself, which always suffices). -/
def natDecCore : Nat → Nat → List Char → List Char
  | 0, _, acc => acc
  | fuel + 1, n, acc =>
    if n = 0 then acc
    else natDecCore fuel (n / 10) (Nat.digitChar (n % 10) :: acc)

/-- Decimal digit characters of a natural number. -/
def natDecChars (n : Nat) : List Char :=
  if n = 0 then ['0'] else natDecCore n n []

/-- Model of Python `str(i)` for an `int` value `i`. -/
def pyStrInt (i : Int) : String :=
  if i < 0 then String.mk ('-' :: natDecChars (-i).toNat)
  else String.mk (natDecChars i.toNat)

/-- Numeric value of a decimal digit character, `none` on non-digits. -/
def digitVal? (c : Char) : Option Nat :=
  if '0' ≤ c ∧ c ≤ '9' then some (c.toNat - '0'.toNat) else none

/-- Left-to-right decimal accumulation; fails on any non-digit. -/
def decToNatAux : List Char → Nat → Option Nat
  | [], acc => some acc
  | c :: rest, acc =>
    match digitVal? c with
    | some d => decToNatAux rest (acc * 10 + d)
    | none => none

/-- Parse a nonempty all-digit character list as a natural number. -/
def decToNat? (cs : List Char) : Option Nat :=
  if cs = [] then none else decToNatAux cs 0

/-- Parse an optionally `-`-signed decimal character list as an integer. -/
def decToInt? (cs : List Char) : Option Int :=
  match cs with
  | '-' :: rest => (decToNat? rest).map (fun n => -(n : Int))
  | _ => (decToNat? cs).map (fun n => (n : Int))

/-! ## Splitting (used to re-parse the exporter's output) -/

/-- Split a character list at every occurrence of `sep`; always returns a
nonempty list of chunks (the chunks do not contain `sep`). -/
def splitOnChar (sep : Char) : List Char → List (List Char)
  | [] => [[]]
  | c :: rest =>
    match splitOnChar sep rest with
    | [] => [[]]
    | h :: t => if c = sep then [] :: h :: t else (c :: h) :: t

/-! ## Candidate debugging ports (`_candidate_ports`, cdp.py lines 93-99) -/

/-- Embedding of `_candidate_ports`: the preferred port followed by the
ports `9223, 9224, 9225` that differ from it (the Python loop
`for p in range(9223, 9226): if p != preferred_port: ports.append(p)`). -/
def _candidate_ports (preferred_port : Nat) : List Nat :=
  preferred_port :: ([9223, 9224, 9225].filter (fun p => decide (p ≠ preferred_port)))

/-! ## Browser sessions (`CdpSession`, cdp.py lines 85-90) -/

/-- Embedding of the `CdpSession` dataclass.  The process handle of the
spawned browser (`subprocess.Popen`) is modelled as an opaque numeric
token; `none` means no owned process. -/
structure CdpSession where
  browser : String
  port : Nat
  proc : Option Nat
  temp_user_data_dir : Option String := none
deriving DecidableEq, Repr

/-! ## Session teardown (`stop_cdp_browser`, cdp.py lines 202-214) -/

/-- Oracle describing which teardown primitives raise when invoked. -/
structure KillEnv where
  taskkillRaises : Bool
  terminateRaises : Bool

/-- Effects performed by a teardown run: the pid (if any) the teardown
attempted to kill, and the directories passed to `shutil.rmtree`. -/
structure TeardownEffects where
  killed : Option Nat
  removedDirs : List String
deriving DecidableEq, Repr

/-- Python `try: body except Exception: handler` where both sides return
no value: the handler runs exactly when the body raises. -/
def pyTryExcept (body handler : Except String Unit) : Except String Unit :=
  match body with
  | .ok _ => .ok ()
  | .error _ => handler

/-- The `_run_quiet(["taskkill", ...])` call of `stop_cdp_browser`; raises
according to the oracle. -/
def _taskkill (env : KillEnv) (_pid : Nat) : Except String Unit :=
  if env.taskkillRaises then .error "taskkill raised" else .ok ()

/-- The `session.proc.terminate()` fallback; raises according to the
oracle. -/
def _terminate (env : KillEnv) (_pid : Nat) : Except String Unit :=
  if env.terminateRaises then .error "terminate raised" else .ok ()

/-- The nested try/except of `stop_cdp_browser`: try taskkill; on failure
try terminate; on failure pass. -/
def _killProcTree (env : KillEnv) (pid : Nat) : Except String Unit :=
  pyTryExcept (_taskkill env pid) (pyTryExcept (_terminate env pid) (.ok ()))

/-- Embedding of `stop_cdp_browser`.  The outer `try ... finally` removes
the temporary profile directory (with `ignore_errors=True`, so removal
never raises) whether or not the kill step raised, then propagates any
exception of the body; the body's own exceptions are all swallowed by the
nested handlers. -/
def stop_cdp_browser (env : KillEnv) (s : CdpSession) : Except String TeardownEffects :=
  let bodyRes : Except String Unit :=
    match s.proc with
    | none => .ok ()
    | some pid => _killProcTree env pid
  let removed : List String :=
    match s.temp_user_data_dir with
    | some d => [d]
    | none => []
  match bodyRes with
  | .ok _ => .ok ⟨s.proc, removed⟩
  | .error e => .error e

/-! ## Session launcher (`start_cdp_browser`, cdp.py lines 133-199) -/

/-- Oracle for the launcher's external world.  Each liveness probe
(`_try_http_json` on `/json/version`) and each `_wait_port` call consumes
one step of a global counter, so probes at different moments may answer
differently; `exeExists` tells which filesystem paths hold a browser
executable; `tempDir` is the path `tempfile.mkdtemp` returns. -/
structure LaunchEnv where
  live : Nat → Nat → Bool
  waitOk : Nat → Nat → Bool
  exeExists : String → Bool
  tempDir : String

/-- One recorded browser spawn attempt (`_start_browser_once` call):
which port, which profile-data directory, and the headless flag passed. -/
structure SpawnRec where
  port : Nat
  user_data_dir : String
  profile : String
  headless : Bool
deriving DecidableEq, Repr

/-- Embedding of the candidate executable lists of `_find_browser_exe`. -/
def _browser_exe_candidates (browser : String) : List String :=
  if browser = "edge" then
    ["C:\\Program Files (x86)\\Microsoft\\Edge\\Application\\msedge.exe",
     "C:\\Program Files\\Microsoft\\Edge\\Application\\msedge.exe"]
  else if browser = "chrome" then
    ["C:\\Program Files\\Google\\Chrome\\Application\\chrome.exe",
     "C:\\Program Files (x86)\\Google\\Chrome\\Application\\chrome.exe"]
  else []

/-- Embedding of `_find_browser_exe`: first existing candidate path, a
`ValueError` for unsupported families, `FileNotFoundError` when no
candidate exists. -/
def _find_browser_exe (env : LaunchEnv) (browser : String) : Except String String :=
  if browser ≠ "edge" ∧ browser ≠ "chrome" then .error "unsupported browser"
  else
    match (_browser_exe_candidates browser).find? env.exeExists with
    | some p => .ok p
    | none => .error "could not find executable in default locations"

/-- Embedding of `_default_user_data_dir` (the `LOCALAPPDATA` environment
variable is abstracted as a path token; raises `ValueError` on an
unsupported family). -/
def _default_user_data_dir (browser : String) : Except String String :=
  if browser = "edge" then .ok "<LOCALAPPDATA>\\Microsoft\\Edge\\User Data"
  else if browser = "chrome" then .ok "<LOCALAPPDATA>\\Google\\Chrome\\User Data"
  else .error "unsupported browser"

/-- Outcome of one pass of the launcher's port loop: a session, an
exhausted candidate list, or a propagating exception (an exception in
`_start_browser_once` is not caught by the loop). -/
inductive LoopRes where
  | ok (s : CdpSession)
  | exhausted
  | exn (msg : String)
deriving DecidableEq, Repr

/-- The real-profile pass of `start_cdp_browser` (lines 147-169): for each
candidate port, re-probe (attach with no owned process if live), else
spawn with `headless or i > 0`, wait up to 12s, and on failure kill the
spawn and move on.  Returns the outcome, the final step counter, and the
spawn attempts made (pids are modelled by the step counter at spawn
time). -/
def tryPortsReal (env : LaunchEnv) (browser udd profile : String) (headless : Bool) :
    Nat → Nat → List Nat → LoopRes × Nat × List SpawnRec
  | t, _, [] => (.exhausted, t, [])
  | t, i, p :: rest =>
    if env.live t p then (.ok ⟨browser, p, none, none⟩, t + 1, [])
    else
      match _find_browser_exe env browser with
      | .error e => (.exn e, t + 1, [])
      | .ok _ =>
        let rec1 : SpawnRec := ⟨p, udd, profile, headless || decide (0 < i)⟩
        if env.waitOk (t + 1) p then
          (.ok ⟨browser, p, some (t + 1), none⟩, t + 2, [rec1])
        else
          let out := tryPortsReal env browser udd profile headless (t + 2) (i + 1) rest
          (out.1, out.2.1, rec1 :: out.2.2)

/-- The temporary-profile pass of `start_cdp_browser` (lines 173-192):
same loop over the same candidate ports, but bound to the fresh temporary
profile directory, always headless, and every produced session carries
`temp_user_data_dir`. -/
def tryPortsTemp (env : LaunchEnv) (browser tempUdd profile : String) :
    Nat → List Nat → LoopRes × Nat × List SpawnRec
  | t, [] => (.exhausted, t, [])
  | t, p :: rest =>
    if env.live t p then (.ok ⟨browser, p, none, some tempUdd⟩, t + 1, [])
    else
      match _find_browser_exe env browser with
      | .error e => (.exn e, t + 1, [])
      | .ok _ =>
        let rec1 : SpawnRec := ⟨p, tempUdd, profile, true⟩
        if env.waitOk (t + 1) p then
          (.ok ⟨browser, p, some (t + 1), some tempUdd⟩, t + 2, [rec1])
        else
          let out := tryPortsTemp env browser tempUdd profile (t + 2) rest
          (out.1, out.2.1, rec1 :: out.2.2)

/-- Embedding of `start_cdp_browser`: probe the preferred port first and
attach without spawning if it is live; otherwise resolve the profile-data
directory, run the real-profile pass over the candidate ports, and if it
exhausts and the caller pinned no profile directory, run the
temporary-profile pass; when everything fails, raise `RuntimeError`
(after removing the temporary directory, an effect not claimed here).
The second component collects every spawn attempt in order. -/
def start_cdp_browser (env : LaunchEnv) (browser : String) (port : Nat)
    (user_data_dir : Option String) (profile : String) (headless : Bool) :
    Except String CdpSession × List SpawnRec :=
  if env.live 0 port then (.ok ⟨browser, port, none, none⟩, [])
  else
    let uddRes : Except String String :=
      match user_data_dir with
      | some d => .ok d
      | none => _default_user_data_dir browser
    match uddRes with
    | .error e => (.error e, [])
    | .ok baseUdd =>
      let ports := _candidate_ports port
      match tryPortsReal env browser baseUdd profile headless 1 0 ports with
      | (.ok s, _, spawns) => (.ok s, spawns)
      | (.exn e, _, spawns) => (.error e, spawns)
      | (.exhausted, t, spawns) =>
        match user_data_dir with
        | some _ => (.error "failed to start with CDP", spawns)
        | none =>
          match tryPortsTemp env browser env.tempDir profile t ports with
          | (.ok s, _, spawns2) => (.ok s, spawns ++ spawns2)
          | (.exn e, _, spawns2) => (.error e, spawns ++ spawns2)
          | (.exhausted, _, spawns2) => (.error "failed to start with CDP", spawns ++ spawns2)

/-! ## URL path extraction (model of `urllib.parse.urlparse(url).path`) -/

/-- Scheme characters accepted by `urllib.parse` (`letters digits +-.`). -/
def isSchemeChar (c : Char) : Bool :=
  c.isAlpha || c.isDigit || c == '+' || c == '-' || c == '.'

/-- Drop a leading `scheme:` when the text before the first `:` is a
nonempty run of scheme characters starting with a letter. -/
def splitScheme (cs : List Char) : List Char :=
  let pre := cs.takeWhile isSchemeChar
  match pre, cs.drop pre.length with
  | c :: _, ':' :: rest => if c.isAlpha then rest else cs
  | _, _ => cs

/-- Characters ending the authority component. -/
def isNetlocEnd (c : Char) : Bool :=
  c == '/' || c == '?' || c == '#'

/-- When the remainder starts with `//`, split off the authority
component (up to the next `/`, `?` or `#`), returning it beside the
rest. -/
def splitNetloc : List Char → List Char × List Char
  | '/' :: '/' :: rest =>
    (rest.takeWhile (fun c => !isNetlocEnd c), rest.dropWhile (fun c => !isNetlocEnd c))
  | cs => ([], cs)

/-- The `;params` split of `urlparse`: cut the path at the first `;`
situated in its final `/`-separated segment (at the first `;` at all when
the path has no `/`). -/
def splitParams (cs : List Char) : List Char :=
  if ';' ∈ cs then
    if '/' ∈ cs then
      let tailAfter := (cs.reverse.takeWhile (fun c => c ≠ '/')).reverse
      let pre := cs.take (cs.length - tailAfter.length)
      if ';' ∈ tailAfter then pre ++ tailAfter.takeWhile (fun c => c ≠ ';') else cs
    else
      cs.takeWhile (fun c => c ≠ ';')
  else cs

/-- Model of `urllib.parse.urlparse(url).path` for the driver's
`try: path = urlparse(resp_url).path except Exception: path = ""` step:
strip surrounding C0-control/space characters and embedded tab/CR/LF,
drop the scheme and authority, cut query, fragment and params.  The
`ValueError` urlparse raises on an authority with mismatched brackets is
modelled by the handler's `""` (deeper bracketed-host validation is not
modelled). -/
def urlparsePath (url : String) : String :=
  let cs := url.data
  let cs := (cs.dropWhile (fun c => c.toNat ≤ 0x20)).reverse
  let cs := (cs.dropWhile (fun c => c.toNat ≤ 0x20)).reverse
  let cs := cs.filter (fun c => c ≠ '\t' ∧ c ≠ '\r' ∧ c ≠ '\n')
  let cs := splitScheme cs
  let (netloc, cs) := splitNetloc cs
  if ('[' ∈ netloc) ≠ (']' ∈ netloc) then ""
  else
    let cs := cs.takeWhile (fun c => c ≠ '#')
    let cs := cs.takeWhile (fun c => c ≠ '?')
    String.mk (splitParams cs)

/-! ## Navigation and capture driver (`fetch_douyin_detail_json_via_cdp`) -/

/-- The fixed detail-endpoint path the driver looks for
(cdp.py line 420). -/
def detailPathPat : String := "/aweme/v1/web/aweme/detail/"

/-- A `Network.responseReceived` protocol event, with exactly the fields
the driver reads: `params.get("requestId")`, `resp.get("url", "")` and
`resp.get("mimeType")` (each possibly missing). -/
structure RespReceivedEvent where
  requestId : Option String
  url : Option String
  mimeType : Option String
deriving DecidableEq, Repr

/-- The content-type test of cdp.py line 421 on the raw mime string:
lowercase it, then test the three Python substring membership checks. -/
def mimeJsonOrText (mimeRaw : String) : Bool :=
  let mime := pyLower mimeRaw
  pyInStr "json" mime || pyInStr "application/json" mime || pyInStr "text/plain" mime

/-- Candidate-recording decision of the driver's
`Network.responseReceived` branch (cdp.py lines 407-422): skip events
with a falsy request id; record `(requestId, url)` exactly when the URL
path starts with the detail prefix and the mime test passes. -/
def respCandidate (e : RespReceivedEvent) : Option (String × String) :=
  match e.requestId with
  | none => none
  | some rid =>
    if rid = "" then none
    else
      let respUrl := e.url.getD ""
      let mime := e.mimeType.getD ""
      if pyStartsWith (urlparsePath respUrl) detailPathPat && mimeJsonOrText mime then
        some (rid, respUrl)
      else none

/-! ## Response-body handling of the capture driver (cdp.py lines 429-450) -/

/-- Dynamic JSON values as Python's `json.loads` produces them (`dict`s
keep insertion order, modelled as association lists). -/
inductive PyJson where
  | jNull
  | jBool (b : Bool)
  | jNum (q : ℚ)
  | jStr (s : String)
  | jArr (elems : List PyJson)
  | jObj (fields : List (String × PyJson))

/-- Python `dict.setdefault k v` on an insertion-ordered association
list: unchanged when the key is present, else the pair is appended. -/
def setdefaultField (fields : List (String × PyJson)) (k : String) (v : PyJson) :
    List (String × PyJson) :=
  if fields.any (fun kv => kv.1 == k) then fields else fields ++ [(k, v)]

/-- The driver's `if isinstance(obj, dict): obj.setdefault("__cdp_captured_url", url)`
step: only dict values receive the marker, and only when absent. -/
def attachCapturedUrl (j : PyJson) (url : String) : PyJson :=
  match j with
  | .jObj fields => .jObj (setdefaultField fields "__cdp_captured_url" (.jStr url))
  | j => j

/-- Whether a JSON value is an object carrying field `k`. -/
def jsonHasField (j : PyJson) (k : String) : Bool :=
  match j with
  | .jObj fields => fields.any (fun kv => kv.1 == k)
  | _ => false

/-- Field lookup on a JSON object (first binding wins, as in a dict). -/
def jsonGetField (j : PyJson) (k : String) : Option PyJson :=
  match j with
  | .jObj fields => (fields.find? (fun kv => kv.1 == k)).map (fun kv => kv.2)
  | _ => none

/-- The `base64.b64decode(body).decode(...)` step guarded by the reply's
`base64Encoded` flag (cdp.py lines 438-441); the decoder itself is an
oracle parameter. -/
def decodeBodyStep (b64decode : String → String) (body : String) (flagged : Bool) : String :=
  if flagged then b64decode body else body

/-- The driver's handling of a `Network.getResponseBody` reply
(cdp.py lines 436-450): decode the body if flagged, parse it as JSON
(`parse` is the `json.loads` oracle; `none` models a raised
`JSONDecodeError`), and on success return the value after the
marker-attaching step; on parse failure the capture is a miss (`none`)
and the scan resumes. -/
def processBodyReply (parse : String → Option PyJson) (b64decode : String → String)
    (body : String) (flagged : Bool) (url : String) : Option PyJson :=
  match parse (decodeBodyStep b64decode body flagged) with
  | some j => some (attachCapturedUrl j url)
  | none => none

/-! ## Protocol client: request ids and reply waiting (cdp.py 249-276, 376-389, 429-435) -/

/-- One frame read from the debugging socket: replies carry an `id`,
events carry a `method`. -/
structure WsFrame where
  id : Option Nat
  method : Option String
deriving DecidableEq, Repr

/-- The `send` closure shared by the exporter and the driver
(cdp.py lines 251-258 and 376-383): increment `msg_id`, then use it as
the frame id.  Returns the new counter and the id sent. -/
def sendMsg (msg_id : Nat) : Nat × Nat :=
  (msg_id + 1, msg_id + 1)

/-- Ids produced by `k` consecutive `send` calls starting from counter
`msg_id`. -/
def sendSeq (msg_id : Nat) : Nat → List Nat
  | 0 => []
  | Nat.succ k => (sendMsg msg_id).2 :: sendSeq (sendMsg msg_id).1 k

/-- The reply-wait loops (`recv_until` of the exporter, and the driver's
`if o2.get("id") != body_id: continue` loop): scan the arriving frames,
discarding every frame whose id differs, and return the first frame whose
id equals the awaited one; an exhausted list models the deadline
expiring. -/
def awaitReplyFrames (frames : List WsFrame) (target : Nat) : Option WsFrame :=
  frames.find? (fun f => f.id == some target)

/-! ## Cookie exporter serialization (`export_netscape_cookies_via_cdp`, cdp.py 293-329) -/

/-- The `expires` attribute of a CDP cookie as the exporter can meet it:
missing, a JSON number (CDP sends epoch seconds as a float), or a truthy
value `float()` rejects. -/
inductive CookieExpires where
  | absent
  | num (q : ℚ)
  | unparseable
deriving DecidableEq, Repr

/-- A cookie dict from `Network.getAllCookies`, restricted to the keys
the exporter reads (each possibly missing). -/
structure CdpCookie where
  domain : Option String
  name : Option String
  value : Option String
  path : Option String
  secure : Option Bool
  expires : CookieExpires
deriving DecidableEq, Repr

/-- The exporter's expiry normalization (cdp.py lines 306-313): a falsy
`expires` (missing or zero) gives `0`; otherwise `int(float(expires))`
(truncation toward zero), with an unparseable value giving `0` through
the `except`. -/
def expires_i (e : CookieExpires) : Int :=
  match e with
  | .absent => 0
  | .num q => if q = 0 then 0 else q.num.tdiv q.den
  | .unparseable => 0

/-- The seven tab-separated fields of one record, in the order the
exporter writes them (cdp.py lines 299-327): domain, include-subdomains
flag, path, secure flag, expiry, name, value. -/
def cookieFields (c : CdpCookie) : List String :=
  let domain := c.domain.getD ""
  let name := c.name.getD ""
  let value := c.value.getD ""
  let cpath := c.path.getD "/"
  let secure := if c.secure.getD false then "TRUE" else "FALSE"
  let include_subdomains := if pyStartsWith domain "." then "TRUE" else "FALSE"
  [domain, include_subdomains, cpath, secure, pyStrInt (expires_i c.expires), name, value]

/-- One record line (`"\t".join([...])`). -/
def cookieLine (c : CdpCookie) : String :=
  pyJoin "\t" (cookieFields c)

/-- The full text the exporter writes: the two comment header lines, a
blank line, then one newline-terminated record per cookie. -/
def cookieFileText (cookies : List CdpCookie) : String :=
  pyConcat (["# Netscape HTTP Cookie File\n", "# Exported via CDP (DevTools Protocol)\n\n"]
    ++ cookies.map (fun c => cookieLine c ++ "\n"))

/-! ## Re-parser for the Netscape cookie file (the claim side of the
round-trip: standard interchange-format reading, written from the spec's
description of the format, not from the repository) -/

/-- The tuple the round-trip claim compares:
`(domain, name, value, path, secure, expires-as-int, includeSubdomains)`. -/
structure CookieTuple where
  domain : String
  name : String
  value : String
  path : String
  secure : Bool
  expires : Int
  includeSubdomains : Bool
deriving DecidableEq, Repr

/-- Parse one record line: split on tabs, require the seven fields in
interchange order with an integer expiry. -/
def parseCookieRecordLine (cs : List Char) : Option CookieTuple :=
  match splitOnChar '\t' cs with
  | [d, sub, p, sec, exp, n, v] =>
    match decToInt? exp with
    | some e =>
      some ⟨String.mk d, String.mk n, String.mk v, String.mk p,
            String.mk sec == "TRUE", e, String.mk sub == "TRUE"⟩
    | none => none
  | _ => none

/-- Parse a cookie file: split into lines, drop comment and blank lines,
parse each remaining record line. -/
def parseNetscapeFile (text : String) : List CookieTuple :=
  ((splitOnChar '\n' text.data).filter
      (fun l => decide (l ≠ [] ∧ l.head? ≠ some '#'))).filterMap parseCookieRecordLine

/-- The tuple the exporter is expected to reproduce for a cookie record,
as the round-trip claim states it: the effective field values, expiry as
the normalized integer, include-subdomains true iff the domain has a
leading dot. -/
def expectedTuple (c : CdpCookie) : CookieTuple :=
  ⟨c.domain.getD "", c.name.getD "", c.value.getD "", c.path.getD "/",
   c.secure.getD false, expires_i c.expires, pyStartsWith (c.domain.getD "") "."⟩

/-- Well-formedness of a cookie record for the round trip: the four text
fields carry no tab or newline, and the domain does not begin with the
comment character. -/
def wfCookie (c : CdpCookie) : Prop :=
  (∀ ch ∈ (c.domain.getD "").data, ch ≠ '\t' ∧ ch ≠ '\n') ∧
  (∀ ch ∈ (c.name.getD "").data, ch ≠ '\t' ∧ ch ≠ '\n') ∧
  (∀ ch ∈ (c.value.getD "").data, ch ≠ '\t' ∧ ch ≠ '\n') ∧
  (∀ ch ∈ (c.path.getD "/").data, ch ≠ '\t' ∧ ch ≠ '\n') ∧
  (c.domain.getD "").data.head? ≠ some '#'

instance (c : CdpCookie) : Decidable (wfCookie c) := by
  unfold wfCookie; infer_instance

/-! ## Helper lemmas -/

/-- The nested kill try/except of teardown swallows every failure. -/
theorem killProcTree_ok (env : KillEnv) (pid : Nat) : _killProcTree env pid = .ok () := by
  unfold _killProcTree pyTryExcept _taskkill _terminate
  cases env.taskkillRaises <;> cases env.terminateRaises <;> rfl

/-- Teardown always returns normally, with the owned pid as the kill
target and exactly the temporary directory (when any) removed. -/
theorem stop_cdp_browser_eq (env : KillEnv) (s : CdpSession) :
    stop_cdp_browser env s =
      .ok ⟨s.proc, match s.temp_user_data_dir with | some d => [d] | none => []⟩ := by
  have hbody : (match s.proc with
      | none => Except.ok ()
      | some pid => _killProcTree env pid) = Except.ok () := by
    cases s.proc with
    | none => rfl
    | some pid => exact killProcTree_ok env pid
  unfold stop_cdp_browser
  rw [hbody]

/-- Every id produced by a run of sends starting at counter `n` exceeds
`n`. -/
theorem sendSeq_lower (k : Nat) : ∀ n x, x ∈ sendSeq n k → n < x := by
  induction k with
  | zero => intro n x hx; simp [sendSeq] at hx
  | succ k ih =>
    intro n x hx
    simp only [sendSeq, sendMsg, List.mem_cons] at hx
    rcases hx with h | h
    · omega
    · have := ih (n + 1) x h
      omega

/-! ## C4: candidate port list shape -/

/-- Claim C4, counterexample: the candidate port list does NOT have the
same length for every preferred port — preferring `9223` yields three
candidates while preferring `9222` yields four. -/
theorem candidate_ports_length_not_constant :
    (_candidate_ports 9223).length = 3 ∧ (_candidate_ports 9222).length = 4 ∧
    (_candidate_ports 9223).length ≠ (_candidate_ports 9222).length := by
  decide

/-- Claim C4 (amended): for every preferred port `p`, the candidate list
starts with `p` and has a fixed small bound — its length is `3` when `p`
is one of the alternate ports `9223, 9224, 9225` and `4` otherwise, so it
always lies between `3` and `4`. -/
theorem candidate_ports_head_and_bound (p : Nat) :
    (_candidate_ports p).head? = some p ∧
    (_candidate_ports p).length =
      (if p = 9223 ∨ p = 9224 ∨ p = 9225 then 3 else 4) ∧
    3 ≤ (_candidate_ports p).length ∧ (_candidate_ports p).length ≤ 4 := by
  have hflip : ∀ q : Nat, (decide (q ≠ p)) = !(decide (p = q)) := by
    intro q; by_cases h : p = q <;> simp [h, Ne, eq_comm]
  have hlen : (_candidate_ports p).length =
      (if p = 9223 ∨ p = 9224 ∨ p = 9225 then 3 else 4) := by
    by_cases h1 : p = 9223 <;> by_cases h2 : p = 9224 <;> by_cases h3 : p = 9225 <;>
      simp [_candidate_ports, List.filter, hflip, h1, h2, h3]
  refine ⟨rfl, hlen, ?_, ?_⟩ <;> rw [hlen] <;> split <;> omega

/-! ## C5: teardown removes exactly the temporary profile directory -/

/-- Claim C5: teardown removes a directory iff it is the session's
temporary profile directory; in particular a session without a temporary
directory (a caller-supplied or default real profile) has nothing
removed, and the teardown returns without touching anything else. -/
theorem teardown_removes_iff_temp (env : KillEnv) (s : CdpSession)
    (eff : TeardownEffects) (h : stop_cdp_browser env s = .ok eff) :
    (∀ d, d ∈ eff.removedDirs ↔ s.temp_user_data_dir = some d) ∧
    (s.temp_user_data_dir = none → eff.removedDirs = []) ∧
    eff.killed = s.proc := by
  rw [stop_cdp_browser_eq env s] at h
  simp only [Except.ok.injEq] at h
  subst h
  cases htmp : s.temp_user_data_dir with
  | none => simp [htmp]
  | some d => simp [htmp, eq_comm]

/-- Witness for C5 at a concrete session: the temporary directory is
removed, and for a session with no temporary directory nothing is. -/
theorem teardown_removes_iff_temp_witness :
    ("C:\\Temp\\edge-cdp-x" ∈
      (TeardownEffects.mk (some 5) ["C:\\Temp\\edge-cdp-x"]).removedDirs ↔
      (CdpSession.mk "edge" 9222 (some 5) (some "C:\\Temp\\edge-cdp-x")).temp_user_data_dir =
        some "C:\\Temp\\edge-cdp-x") ∧
    (TeardownEffects.mk none []).removedDirs = [] := by
  refine ⟨(teardown_removes_iff_temp ⟨false, false⟩
      ⟨"edge", 9222, some 5, some "C:\\Temp\\edge-cdp-x"⟩ _ rfl).1 _, ?_⟩
  exact (teardown_removes_iff_temp ⟨true, true⟩ ⟨"edge", 9222, none, none⟩ _ rfl).2.1 rfl

/-! ## C9: teardown is total and silent -/

/-- Claim C9: for every session and every combination of failing kill
primitives, teardown returns normally — no exception escapes
`stop_cdp_browser`. -/
theorem teardown_never_raises (env : KillEnv) (s : CdpSession) :
    ∃ eff, stop_cdp_browser env s = .ok eff :=
  ⟨_, stop_cdp_browser_eq env s⟩

/-! ## C10: negative expiry values are written truncated, not zeroed -/

/-- Claim C10: a negative numeric expiry is not normalized to `0`: the
exporter writes its truncation toward zero verbatim in the fifth field,
while a missing, zero, or unparseable expiry is written as `0`. -/
theorem negative_expiry_written_verbatim :
    (∀ q : ℚ, q < 0 → expires_i (.num q) = q.num.tdiv q.den) ∧
    (∀ (c : CdpCookie) (q : ℚ), c.expires = .num q → q < 0 →
      (cookieFields c).get? 4 = some (pyStrInt (q.num.tdiv q.den))) ∧
    expires_i .absent = 0 ∧ expires_i (.num 0) = 0 ∧ expires_i .unparseable = 0 := by
  have hneg : ∀ q : ℚ, q < 0 → expires_i (.num q) = q.num.tdiv q.den := by
    intro q hq
    have : q ≠ 0 := ne_of_lt hq
    simp [expires_i, this]
  refine ⟨hneg, ?_, rfl, by simp [expires_i], rfl⟩
  intro c q hc hq
  simp [cookieFields, hc, hneg q hq]

/-- Witness for C10 at expiry `-1` (the protocol's session-cookie
sentinel): the written field is the string `-1`, not `0`. -/
theorem negative_expiry_written_verbatim_witness :
    ((-1 : ℚ) < 0) ∧
    (cookieFields ⟨some "x.com", some "n", some "v", some "/", some false, .num (-1)⟩).get? 4 =
      some (pyStrInt ((-1 : ℚ).num.tdiv (-1 : ℚ).den)) ∧
    pyStrInt ((-1 : ℚ).num.tdiv (-1 : ℚ).den) = "-1" := by
  refine ⟨by norm_num, ?_, by decide⟩
  exact negative_expiry_written_verbatim.2.1 _ (-1) rfl (by norm_num)

/-! ## C6: request-id monotonicity and reply correlation -/

/-- Claim C6: a `send` increments the counter by one and uses the new
value as the frame id; any run of sequential sends therefore produces
strictly increasing, never-reused ids; and the reply-wait loop for a
given id only ever returns a frame carrying exactly that id. -/
theorem request_ids_monotone_reply_match :
    (∀ n, sendMsg n = (n + 1, n + 1)) ∧
    (∀ n k, List.Pairwise (· < ·) (sendSeq n k)) ∧
    (∀ n k, (sendSeq n k).Nodup) ∧
    (∀ frames target f, awaitReplyFrames frames target = some f → f.id = some target) := by
  have hpair : ∀ k n, List.Pairwise (· < ·) (sendSeq n k) := by
    intro k
    induction k with
    | zero => intro n; simp [sendSeq]
    | succ k ih =>
      intro n
      simp only [sendSeq, sendMsg]
      exact List.Pairwise.cons (fun x hx => sendSeq_lower k (n + 1) x hx) (ih (n + 1))
  refine ⟨fun n => rfl, fun n k => hpair k n, ?_, ?_⟩
  · intro n k
    exact (hpair k n).imp (fun h => Nat.ne_of_lt h)
  · intro frames target f h
    have := List.find?_some h
    simpa using this

/-- Demonstration frames for C6: a reply for id 2 arrives before the
reply for id 1. -/
def demoFrames : List WsFrame := [⟨some 2, none⟩, ⟨some 1, none⟩]

/-- Witness for C6: awaiting id 1 on the demonstration frames skips the
id-2 frame and returns a frame whose id is exactly 1. -/
theorem request_ids_monotone_reply_match_witness :
    awaitReplyFrames demoFrames 1 = some ⟨some 1, none⟩ ∧
    (WsFrame.mk (some 1) none).id = some 1 ∧
    sendSeq 0 2 = [1, 2] := by
  refine ⟨rfl, ?_, rfl⟩
  exact request_ids_monotone_reply_match.2.2.2 demoFrames 1 ⟨some 1, none⟩ rfl

/-! ## C2: already-live endpoints are attached, not spawned -/

/-- Claim C2: whenever a probed port is already live — the caller's
preferred port before anything else, or any candidate port during either
scan pass — the launcher returns a session bound to that port with no
owned process (and without having spawned anything new at that step), and
teardown of such a session kills nothing. -/
theorem attach_without_spawn :
    (∀ (env : LaunchEnv) browser port udd profile headless, env.live 0 port = true →
      start_cdp_browser env browser port udd profile headless =
        (.ok ⟨browser, port, none, none⟩, [])) ∧
    (∀ (env : LaunchEnv) browser udd profile headless t i p rest, env.live t p = true →
      tryPortsReal env browser udd profile headless t i (p :: rest) =
        (.ok ⟨browser, p, none, none⟩, t + 1, [])) ∧
    (∀ (env : LaunchEnv) browser tempUdd profile t p rest, env.live t p = true →
      tryPortsTemp env browser tempUdd profile t (p :: rest) =
        (.ok ⟨browser, p, none, some tempUdd⟩, t + 1, [])) ∧
    (∀ (kenv : KillEnv) (s : CdpSession), s.proc = none →
      ∃ eff, stop_cdp_browser kenv s = .ok eff ∧ eff.killed = none) := by
  refine ⟨?_, ?_, ?_, ?_⟩
  · intro env browser port udd profile headless h
    simp [start_cdp_browser, h]
  · intro env browser udd profile headless t i p rest h
    simp [tryPortsReal, h]
  · intro env browser tempUdd profile t p rest h
    simp [tryPortsTemp, h]
  · intro kenv s h
    refine ⟨_, stop_cdp_browser_eq kenv s, ?_⟩
    rw [← h]

/-- Launch environment in which every probe answers live. -/
def envAllLive : LaunchEnv := ⟨fun _ _ => true, fun _ _ => true, fun _ => true, "T"⟩

/-- Witness for C2: with a live preferred port 9222 the launcher attaches
with no owned process and records no spawn attempt. -/
theorem attach_without_spawn_witness :
    envAllLive.live 0 9222 = true ∧
    start_cdp_browser envAllLive "edge" 9222 none "Default" false =
      (.ok ⟨"edge", 9222, none, none⟩, []) ∧
    tryPortsTemp envAllLive "edge" "T" "Default" 5 [9224] =
      (.ok ⟨"edge", 9224, none, some "T"⟩, 6, []) := by
  refine ⟨rfl, ?_, ?_⟩
  · exact attach_without_spawn.1 envAllLive "edge" 9222 none "Default" false rfl
  · exact attach_without_spawn.2.2.1 envAllLive "edge" "T" "Default" 5 9224 [] rfl

/-! ## C1: the capture driver's response-matching predicate -/

/-- Claim C1: for every `Network.responseReceived` event carrying a
request id, the event is recorded as a candidate exactly when the URL
path of its response starts with the fixed detail-endpoint path and its
(lowercased) content-type passes the JSON / plain-text substring test. -/
theorem capture_match_iff (e : RespReceivedEvent) (rid : String)
    (h1 : e.requestId = some rid) (h2 : rid ≠ "") :
    (respCandidate e).isSome = true ↔
      (pyStartsWith (urlparsePath (e.url.getD "")) detailPathPat = true ∧
       mimeJsonOrText (e.mimeType.getD "") = true) := by
  simp only [respCandidate, h1]
  rw [if_neg h2]
  cases hp : pyStartsWith (urlparsePath (e.url.getD "")) detailPathPat <;>
    cases hm : mimeJsonOrText (e.mimeType.getD "") <;>
    simp [hp, hm]

/-- A detail-endpoint response with JSON content-type. -/
def eDetailJson : RespReceivedEvent :=
  ⟨some "req-1", some "https://www.douyin.com/aweme/v1/web/aweme/detail/?aweme_id=7499", some "application/json"⟩

/-- The same path with HTML content-type. -/
def eDetailHtml : RespReceivedEvent :=
  ⟨some "req-2", some "https://www.douyin.com/aweme/v1/web/aweme/detail/?aweme_id=7499", some "text/html"⟩

/-- A different path with JSON content-type. -/
def eOtherJson : RespReceivedEvent :=
  ⟨some "req-3", some "https://www.douyin.com/aweme/v1/web/comment/list/", some "application/json"⟩

/-- Witness for C1: the detail path with JSON is captured; the same path
with HTML is not; a different path is not, even with JSON. -/
theorem capture_match_iff_witness :
    (respCandidate eDetailJson).isSome = true ∧
    respCandidate eDetailHtml = none ∧
    respCandidate eOtherJson = none := by
  refine ⟨(capture_match_iff eDetailJson "req-1" rfl (by decide)).mpr (by decide), ?_, ?_⟩ <;> decide

/-! ## C8: body decoding, parsing and the capture marker -/

/-- A `json.loads` oracle returning a JSON array for any input. -/
def parseArr : String → Option PyJson := fun _ => some (.jArr [])

/-- A `json.loads` oracle returning an empty JSON object for any
input. -/
def parseObjEmpty : String → Option PyJson := fun _ => some (.jObj [])

/-- Claim C8, counterexample: a body that parses as a JSON array is
returned as-is, WITHOUT the `__cdp_captured_url` marker field — the
marker is attached only to dict values, so the claim as stated fails. -/
theorem capture_marker_missing_on_array :
    processBodyReply parseArr id "[1]" false "https://example/detail" = some (.jArr []) ∧
    jsonHasField (.jArr []) "__cdp_captured_url" = false := ⟨rfl, rfl⟩

/-- Claim C8 (amended): when the (base64-decoded if flagged) body parses
as JSON, the driver returns the parsed value after the marker step: a
JSON object receives the `__cdp_captured_url` field carrying the captured
URL when the field is absent (an already-present field is left alone, and
a non-object value is returned unchanged); the body handed to the parser
is the base64-decoded text exactly when the reply flags it. -/
theorem capture_body_amended (parse : String → Option PyJson) (b64decode : String → String)
    (body : String) (flagged : Bool) (url : String) (j : PyJson)
    (h : parse (decodeBodyStep b64decode body flagged) = some j) :
    processBodyReply parse b64decode body flagged url = some (attachCapturedUrl j url) ∧
    decodeBodyStep b64decode body true = b64decode body ∧
    decodeBodyStep b64decode body false = body ∧
    (∀ fields, j = .jObj fields →
      jsonHasField (attachCapturedUrl j url) "__cdp_captured_url" = true ∧
      (fields.any (fun kv => kv.1 == "__cdp_captured_url") = false →
        jsonGetField (attachCapturedUrl j url) "__cdp_captured_url" = some (.jStr url))) ∧
    ((∀ fields, j ≠ .jObj fields) → attachCapturedUrl j url = j) := by
  refine ⟨by simp [processBodyReply, h], rfl, rfl, ?_, ?_⟩
  · intro fields hj
    subst hj
    simp only [attachCapturedUrl, setdefaultField]
    by_cases hk : fields.any (fun kv => kv.1 == "__cdp_captured_url") = true
    · constructor
      · simp [jsonHasField, hk]
      · intro hk'; rw [hk'] at hk; exact absurd hk (by simp)
    · have hk' : fields.any (fun kv => kv.1 == "__cdp_captured_url") = false := by
        revert hk; cases fields.any (fun kv => kv.1 == "__cdp_captured_url") <;> simp
      constructor
      · simp [jsonHasField, hk']
      · intro _
        have hnone : fields.find? (fun kv => kv.1 == "__cdp_captured_url") = none := by
          rw [List.find?_eq_none]
          intro kv hkv
          have := List.any_eq_false.mp hk' kv hkv
          simpa using this
        simp [jsonGetField, hk', List.find?_append, hnone]
  · intro hne
    cases j with
    | jObj fields => exact absurd rfl (hne fields)
    | jNull => rfl
    | jBool b => rfl
    | jNum q => rfl
    | jStr s => rfl
    | jArr es => rfl

/-- Witness for the amended C8: an empty-object body gets exactly the
marker field with the captured URL. -/
theorem capture_body_amended_witness :
    processBodyReply parseObjEmpty id "x" false "https://example/detail" =
      some (attachCapturedUrl (.jObj []) "https://example/detail") ∧
    jsonGetField (attachCapturedUrl (.jObj []) "https://example/detail") "__cdp_captured_url" =
      some (.jStr "https://example/detail") := by
  have h := capture_body_amended parseObjEmpty id "x" false "https://example/detail" (.jObj []) rfl
  exact ⟨h.1, (h.2.2.2.1 [] rfl).2 rfl⟩

/-! ## C3: retries are forced headless -/

/-- In the real-profile pass, every spawn attempt at a positive attempt
index passes `headless = true` (the flag is `headless or i > 0`). -/
theorem tryPortsReal_headless_of_pos (env : LaunchEnv) (browser udd profile : String)
    (headless : Bool) :
    ∀ (ports : List Nat) (t i : Nat), 0 < i →
      ∀ r ∈ (tryPortsReal env browser udd profile headless t i ports).2.2,
        r.headless = true := by
  intro ports
  induction ports with
  | nil => intro t i _ r hr; simp [tryPortsReal] at hr
  | cons p rest ih =>
    intro t i hi r hr
    by_cases hl : env.live t p = true
    · simp [tryPortsReal, hl] at hr
    · cases hfe : _find_browser_exe env browser with
      | error e => simp [tryPortsReal, hl, hfe] at hr
      | ok exe =>
        by_cases hw : env.waitOk (t + 1) p = true
        · simp [tryPortsReal, hl, hfe, hw] at hr
          rw [hr]
          simp [hi]
        · simp [tryPortsReal, hl, hfe, hw] at hr
          rcases hr with hr | hr
          · rw [hr]; simp [hi]
          · exact ih (t + 2) (i + 1) (by omega) r hr

/-- In the real-profile pass started at attempt index `0`, the first
recorded spawn (when one exists) carries exactly the caller's requested
headless flag, and every later one is forced headless. -/
theorem tryPortsReal_first_spawn (env : LaunchEnv) (browser udd profile : String)
    (headless : Bool) (t : Nat) (ports : List Nat) :
    (∀ r, (tryPortsReal env browser udd profile headless t 0 ports).2.2.head? = some r →
      r.headless = headless) ∧
    (∀ r ∈ (tryPortsReal env browser udd profile headless t 0 ports).2.2.tail,
      r.headless = true) := by
  cases ports with
  | nil => constructor <;> intro r hr <;> simp [tryPortsReal] at hr
  | cons p rest =>
    by_cases hl : env.live t p = true
    · constructor <;> intro r hr <;> simp [tryPortsReal, hl] at hr
    · cases hfe : _find_browser_exe env browser with
      | error e => constructor <;> intro r hr <;> simp [tryPortsReal, hl, hfe] at hr
      | ok exe =>
        by_cases hw : env.waitOk (t + 1) p = true
        · constructor <;> intro r hr
          · simp [tryPortsReal, hl, hfe, hw] at hr
            rw [← hr]
          · simp [tryPortsReal, hl, hfe, hw] at hr
        · constructor <;> intro r hr
          · simp [tryPortsReal, hl, hfe, hw] at hr
            rw [← hr]
          · simp [tryPortsReal, hl, hfe, hw] at hr
            exact tryPortsReal_headless_of_pos env browser udd profile headless rest
              (t + 2) 1 (by omega) r hr

/-- Every spawn attempt of the temporary-profile pass passes
`headless = true`. -/
theorem tryPortsTemp_all_headless (env : LaunchEnv) (browser tempUdd profile : String) :
    ∀ (ports : List Nat) (t : Nat),
      ∀ r ∈ (tryPortsTemp env browser tempUdd profile t ports).2.2, r.headless = true := by
  intro ports
  induction ports with
  | nil => intro t r hr; simp [tryPortsTemp] at hr
  | cons p rest ih =>
    intro t r hr
    by_cases hl : env.live t p = true
    · simp [tryPortsTemp, hl] at hr
    · cases hfe : _find_browser_exe env browser with
      | error e => simp [tryPortsTemp, hl, hfe] at hr
      | ok exe =>
        by_cases hw : env.waitOk (t + 1) p = true
        · simp [tryPortsTemp, hl, hfe, hw] at hr
          rw [hr]
        · simp [tryPortsTemp, hl, hfe, hw] at hr
          rcases hr with hr | hr
          · rw [hr]
          · exact ih (t + 2) r hr

/-- A real-profile pass over a nonempty port list that exhausts its
candidates has recorded at least one spawn attempt. -/
theorem tryPortsReal_exhausted_ne_nil (env : LaunchEnv) (browser udd profile : String)
    (headless : Bool) (t i p : Nat) (rest : List Nat)
    (h : (tryPortsReal env browser udd profile headless t i (p :: rest)).1 = .exhausted) :
    (tryPortsReal env browser udd profile headless t i (p :: rest)).2.2 ≠ [] := by
  by_cases hl : env.live t p = true
  · simp [tryPortsReal, hl] at h
  · cases hfe : _find_browser_exe env browser with
    | error e => simp [tryPortsReal, hl, hfe] at h
    | ok exe =>
      by_cases hw : env.waitOk (t + 1) p = true
      · simp [tryPortsReal, hl, hfe, hw] at h
      · simp [tryPortsReal, hl, hfe, hw]

/-- Claim C3: in the launcher's recorded spawn sequence, the first spawn
attempt (when any exists) passes the caller's requested headless flag,
and every spawn attempt after the first passes `headless = true`. -/
theorem retries_forced_headless (env : LaunchEnv) (browser : String) (port : Nat)
    (udd : Option String) (profile : String) (headless : Bool) :
    (∀ r ∈ ((start_cdp_browser env browser port udd profile headless).2).tail,
      r.headless = true) ∧
    (∀ r, ((start_cdp_browser env browser port udd profile headless).2).head? = some r →
      r.headless = headless) := by
  unfold start_cdp_browser
  by_cases hl : env.live 0 port = true
  · simp [hl]
  · rw [if_neg hl]
    cases hudd : (match udd with
        | some d => Except.ok d
        | none => _default_user_data_dir browser) with
    | error e => simp
    | ok baseUdd =>
      have hfirst := tryPortsReal_first_spawn env browser baseUdd profile headless 1
        (_candidate_ports port)
      rcases hreal : tryPortsReal env browser baseUdd profile headless 1 0
          (_candidate_ports port) with ⟨res, t, spawns⟩
      rw [hreal] at hfirst
      simp only at hfirst
      cases res with
      | ok s => simpa [hreal] using ⟨hfirst.2, hfirst.1⟩
      | exn e => simpa [hreal] using ⟨hfirst.2, hfirst.1⟩
      | exhausted =>
        cases udd with
        | some d => simpa [hreal] using ⟨hfirst.2, hfirst.1⟩
        | none =>
          have hne : spawns ≠ [] := by
            have := tryPortsReal_exhausted_ne_nil env browser baseUdd profile headless 1 0
              port ([9223, 9224, 9225].filter (fun q => decide (q ≠ port)))
            rw [show (_candidate_ports port) =
                port :: [9223, 9224, 9225].filter (fun q => decide (q ≠ port)) from rfl] at hreal
            rw [hreal] at this
            exact this rfl
          have htemp := tryPortsTemp_all_headless env browser env.tempDir profile
            (_candidate_ports port) t
          rcases htempEq : tryPortsTemp env browser env.tempDir profile t
              (_candidate_ports port) with ⟨res2, t2, spawns2⟩
          rw [htempEq] at htemp
          simp only at htemp
          cases spawns with
          | nil => exact absurd rfl hne
          | cons a as =>
            have hshape : ∀ out2 : LoopRes × Nat × List SpawnRec, out2 = (res2, t2, spawns2) →
                True := fun _ _ => trivial
            cases res2 with
            | ok s2 =>
              simp only [hreal, htempEq]
              constructor
              · intro r hr
                simp only [List.cons_append, List.tail_cons] at hr
                rcases List.mem_append.mp hr with hr | hr
                · exact hfirst.2 r (by simpa using hr)
                · exact htemp r hr
              · intro r hr
                simp only [List.cons_append, List.head?_cons] at hr
                exact hfirst.1 r (by simpa using hr)
            | exn e2 =>
              simp only [hreal, htempEq]
              constructor
              · intro r hr
                simp only [List.cons_append, List.tail_cons] at hr
                rcases List.mem_append.mp hr with hr | hr
                · exact hfirst.2 r (by simpa using hr)
                · exact htemp r hr
              · intro r hr
                simp only [List.cons_append, List.head?_cons] at hr
                exact hfirst.1 r (by simpa using hr)
            | exhausted =>
              simp only [hreal, htempEq]
              constructor
              · intro r hr
                simp only [List.cons_append, List.tail_cons] at hr
                rcases List.mem_append.mp hr with hr | hr
                · exact hfirst.2 r (by simpa using hr)
                · exact htemp r hr
              · intro r hr
                simp only [List.cons_append, List.head?_cons] at hr
                exact hfirst.1 r (by simpa using hr)

/-- Launch environment in which nothing is live and no spawn ever becomes
reachable, but the executables exist. -/
def envAllDead : LaunchEnv := ⟨fun _ _ => false, fun _ _ => false, fun _ => true, "T"⟩

/-- Witness for C3: with nothing live, a non-headless request on port
9222 records a first spawn honoring `headless = false` and seven further
attempts (remaining real-profile ports and the whole temp-profile pass)
all forced headless. -/
theorem retries_forced_headless_witness :
    ((start_cdp_browser envAllDead "edge" 9222 none "Default" false).2).head? =
      some ⟨9222, "<LOCALAPPDATA>\\Microsoft\\Edge\\User Data", "Default", false⟩ ∧
    (SpawnRec.mk 9222 "<LOCALAPPDATA>\\Microsoft\\Edge\\User Data" "Default" false).headless
      = false ∧
    (SpawnRec.mk 9223 "T" "Default" true) ∈
      ((start_cdp_browser envAllDead "edge" 9222 none "Default" false).2).tail ∧
    (SpawnRec.mk 9223 "T" "Default" true).headless = true := by
  refine ⟨by decide, ?_, by decide, ?_⟩
  · exact (retries_forced_headless envAllDead "edge" 9222 none "Default" false).2 _ (by decide)
  · exact (retries_forced_headless envAllDead "edge" 9222 none "Default" false).1 _ (by decide)

/-! ## C7: round-trip of the cookie serialization.
Decimal-string lemmas first. -/

/-- Zero produces no further digits, whatever the fuel. -/
theorem natDecCore_zero (fuel : Nat) (acc : List Char) : natDecCore fuel 0 acc = acc := by
  cases fuel <;> simp [natDecCore]

/-- The accumulator of `natDecCore` is a suffix: the digits are produced
in front of it. -/
theorem natDecCore_append (fuel : Nat) :
    ∀ (n : Nat) (acc : List Char), natDecCore fuel n acc = natDecCore fuel n [] ++ acc := by
  induction fuel with
  | zero => intro n acc; simp [natDecCore]
  | succ fuel ih =>
    intro n acc
    by_cases hn : n = 0
    · simp [natDecCore, hn]
    · rw [natDecCore, natDecCore, if_neg hn, if_neg hn, ih (n / 10), ih (n / 10) [_]]
      simp

/-- `digitVal?` inverts `Nat.digitChar` on digit values. -/
theorem digitVal?_digitChar (d : Nat) (hd : d < 10) :
    digitVal? (Nat.digitChar d) = some d := by
  interval_cases d <;> decide

/-- Appending one digit multiplies the accumulated value by ten and adds
the digit. -/
theorem decToNatAux_append_digit :
    ∀ (xs : List Char) (k v : Nat), decToNatAux xs k = some v →
      ∀ (c : Char) (d : Nat), digitVal? c = some d →
        decToNatAux (xs ++ [c]) k = some (v * 10 + d) := by
  intro xs
  induction xs with
  | nil =>
    intro k v hv c d hc
    simp only [decToNatAux] at hv
    cases hv
    simp [decToNatAux, hc]
  | cons x rest ih =>
    intro k v hv c d hc
    simp only [decToNatAux] at hv ⊢
    cases hx : digitVal? x with
    | none => rw [hx] at hv; cases hv
    | some dx =>
      rw [hx] at hv
      exact ih (k * 10 + dx) v hv c d hc

/-- Correctness of the digit writer for positive inputs with sufficient
fuel: the produced characters are all digits, nonempty, and re-accumulate
to the original number. -/
theorem natDecCore_spec (fuel : Nat) :
    ∀ n : Nat, 0 < n → n ≤ fuel →
      decToNatAux (natDecCore fuel n []) 0 = some n ∧
      (∀ c ∈ natDecCore fuel n [], (digitVal? c).isSome = true) ∧
      natDecCore fuel n [] ≠ [] := by
  induction fuel with
  | zero => intro n h1 h2; omega
  | succ fuel ih =>
    intro n h1 h2
    have hn : n ≠ 0 := by omega
    rw [natDecCore, if_neg hn, natDecCore_append]
    have hdig : digitVal? (Nat.digitChar (n % 10)) = some (n % 10) :=
      digitVal?_digitChar _ (Nat.mod_lt n (by omega))
    by_cases hq : n / 10 = 0
    · rw [hq, natDecCore_zero]
      refine ⟨?_, ?_, by simp⟩
      · simp only [List.nil_append, decToNatAux, hdig]
        have : n % 10 = n := by omega
        simp [decToNatAux, this]
      · intro c hc
        simp only [List.nil_append, List.mem_singleton] at hc
        rw [hc, hdig]; rfl
    · have hq1 : 0 < n / 10 := Nat.pos_of_ne_zero hq
      have hq2 : n / 10 ≤ fuel := by
        have := Nat.div_lt_self h1 (show 1 < 10 by omega)
        omega
      obtain ⟨hv, hmem, hne⟩ := ih (n / 10) hq1 hq2
      refine ⟨?_, ?_, by simp⟩
      · rw [decToNatAux_append_digit _ _ _ hv _ _ hdig]
        congr 1
        omega
      · intro c hc
        rcases List.mem_append.mp hc with hc | hc
        · exact hmem c hc
        · simp only [List.mem_singleton] at hc
          rw [hc, hdig]; rfl

/-- The decimal writer/reader round trip on naturals, together with the
all-digits property. -/
theorem decToNat?_natDecChars (n : Nat) :
    decToNat? (natDecChars n) = some n ∧
    (∀ c ∈ natDecChars n, (digitVal? c).isSome = true) := by
  by_cases hn : n = 0
  · subst hn; exact ⟨by decide, by decide⟩
  · have h := natDecCore_spec n n (Nat.pos_of_ne_zero hn) (Nat.le_refl n)
    rw [natDecChars, if_neg hn]
    exact ⟨by rw [decToNat?, if_neg h.2.2]; exact h.1, h.2.1⟩

/-- A digit character is not a minus sign, tab, or newline. -/
theorem digit_ne_special (c : Char) (h : (digitVal? c).isSome = true) :
    c ≠ '-' ∧ c ≠ '\t' ∧ c ≠ '\n' := by
  refine ⟨?_, ?_, ?_⟩ <;> rintro rfl <;> revert h <;> decide

/-- On a character list starting with a non-minus character, the signed
parser delegates to the unsigned one. -/
theorem decToInt?_cons_ne (c : Char) (rest : List Char) (hc : c ≠ '-') :
    decToInt? (c :: rest) = (decToNat? (c :: rest)).map (fun n => (n : Int)) := by
  unfold decToInt?
  split
  · next heq => rw [List.cons.injEq] at heq; exact absurd heq.1 hc
  · rfl

/-- On a minus-headed character list the signed parser negates the
unsigned parse of the rest. -/
theorem decToInt?_neg_cons (rest : List Char) :
    decToInt? ('-' :: rest) = (decToNat? rest).map (fun n => -(n : Int)) := rfl

/-- The integer decimal writer/reader round trip: re-parsing the model of
Python `str(i)` gives back `i`. -/
theorem decToInt?_pyStrInt (i : Int) : decToInt? (pyStrInt i).data = some i := by
  by_cases hi : i < 0
  · rw [pyStrInt, if_pos hi]
    show decToInt? ('-' :: natDecChars (-i).toNat) = some i
    rw [decToInt?_neg_cons, (decToNat?_natDecChars (-i).toNat).1]
    have h2 : -((((-i).toNat : Nat)) : Int) = i := by omega
    show some (-((((-i).toNat : Nat)) : Int)) = some i
    rw [h2]
  · rw [pyStrInt, if_neg hi]
    show decToInt? (natDecChars i.toNat) = some i
    obtain ⟨hval, hmem⟩ := decToNat?_natDecChars i.toNat
    cases hsh : natDecChars i.toNat with
    | nil => rw [hsh, decToNat?] at hval; simp at hval
    | cons c rest =>
      have hcd : c ≠ '-' := by
        have : (digitVal? c).isSome = true := hmem c (by rw [hsh]; exact List.mem_cons_self c rest)
        exact (digit_ne_special c this).1
      rw [decToInt?_cons_ne c rest hcd, ← hsh, hval]
      have h2 : (((i.toNat : Nat)) : Int) = i := by omega
      show some (((i.toNat : Nat)) : Int) = some i
      rw [h2]

/-! Split/join lemmas for the tab-separated records and the line
structure of the file. -/

/-- A separator-free list is one single chunk. -/
theorem splitOnChar_not_mem (sep : Char) :
    ∀ cs : List Char, sep ∉ cs → splitOnChar sep cs = [cs] := by
  intro cs
  induction cs with
  | nil => intro _; rfl
  | cons c rest ih =>
    intro h
    have hc : c ≠ sep := fun hh => h (hh ▸ List.mem_cons_self c rest)
    have hrest : sep ∉ rest := fun hh => h (List.mem_cons_of_mem c hh)
    rw [splitOnChar, ih hrest]
    simp [hc]

/-- Splitting peels a separator-free chunk before an explicit
separator. -/
theorem splitOnChar_append (sep : Char) :
    ∀ (l rest : List Char), sep ∉ l →
      splitOnChar sep (l ++ sep :: rest) = l :: splitOnChar sep rest := by
  intro l
  induction l with
  | nil =>
    intro rest _
    show splitOnChar sep (sep :: rest) = [] :: splitOnChar sep rest
    rw [splitOnChar]
    cases hs : splitOnChar sep rest with
    | nil => simp
    | cons h t => simp
  | cons c cs ih =>
    intro rest hmem
    have hc : c ≠ sep := fun hh => hmem (hh ▸ List.mem_cons_self c cs)
    have hcs : sep ∉ cs := fun hh => hmem (List.mem_cons_of_mem c hh)
    show splitOnChar sep (c :: (cs ++ sep :: rest)) = (c :: cs) :: splitOnChar sep rest
    rw [splitOnChar, ih rest hcs]
    simp [hc]

/-- Identify a string with its character list. -/
theorem strMk_data (s : String) : String.mk s.data = s := rfl

/-- String append acts as list append on the characters. -/
theorem str_data_append (s t : String) : (s ++ t).data = s.data ++ t.data :=
  String.data_append s t

/-- Splitting the join of tab-free fields on tabs recovers the fields. -/
theorem splitOnChar_pyJoin_tab :
    ∀ fields : List String, fields ≠ [] → (∀ f ∈ fields, '\t' ∉ f.data) →
      splitOnChar '\t' (pyJoin "\t" fields).data = fields.map (fun f => f.data) := by
  intro fields
  induction fields with
  | nil => intro h _; exact absurd rfl h
  | cons x rest ih =>
    intro _ hfree
    cases rest with
    | nil =>
      rw [show pyJoin "\t" [x] = x from rfl]
      rw [splitOnChar_not_mem '\t' x.data (hfree x (List.mem_cons_self x []))]
      rfl
    | cons y rest' =>
      have hx : '\t' ∉ x.data := hfree x (List.mem_cons_self x (y :: rest'))
      have hrest : ∀ f ∈ y :: rest', '\t' ∉ f.data :=
        fun f hf => hfree f (List.mem_cons_of_mem x hf)
      have hdata : (pyJoin "\t" (x :: y :: rest')).data =
          x.data ++ '\t' :: (pyJoin "\t" (y :: rest')).data := by
        rw [show pyJoin "\t" (x :: y :: rest') = x ++ "\t" ++ pyJoin "\t" (y :: rest') from rfl]
        rw [str_data_append, str_data_append, List.append_assoc]
        rfl
      rw [hdata, splitOnChar_append '\t' x.data _ hx, ih (by simp) hrest]
      rfl

/-- Every character of a join comes from the separator or one of the
fields. -/
theorem mem_pyJoin_data (sep : String) :
    ∀ (fields : List String) (c : Char), c ∈ (pyJoin sep fields).data →
      c ∈ sep.data ∨ ∃ f ∈ fields, c ∈ f.data := by
  intro fields
  induction fields with
  | nil => intro c hc; simp [pyJoin] at hc
  | cons x rest ih =>
    intro c hc
    cases rest with
    | nil =>
      right
      exact ⟨x, List.mem_cons_self x [], hc⟩
    | cons y rest' =>
      rw [show pyJoin sep (x :: y :: rest') = x ++ sep ++ pyJoin sep (y :: rest') from rfl,
        str_data_append, str_data_append] at hc
      rcases List.mem_append.mp hc with hc | hc
      · rcases List.mem_append.mp hc with hc | hc
        · exact Or.inr ⟨x, List.mem_cons_self x _, hc⟩
        · exact Or.inl hc
      · rcases ih c hc with hc | ⟨f, hf, hcf⟩
        · exact Or.inl hc
        · exact Or.inr ⟨f, List.mem_cons_of_mem x hf, hcf⟩

/-- The characters of the written expiry field are a minus sign or
digits; in particular never tab or newline. -/
theorem pyStrInt_no_ctl (i : Int) (ch : Char) (h : ch ∈ (pyStrInt i).data) :
    ch ≠ '\t' ∧ ch ≠ '\n' := by
  rw [pyStrInt] at h
  by_cases hi : i < 0
  · rw [if_pos hi] at h
    rcases List.mem_cons.mp h with rfl | h
    · exact ⟨by decide, by decide⟩
    · have hd := (decToNat?_natDecChars (-i).toNat).2 ch h
      exact ⟨(digit_ne_special ch hd).2.1, (digit_ne_special ch hd).2.2⟩
  · rw [if_neg hi] at h
    have hd := (decToNat?_natDecChars i.toNat).2 ch h
    exact ⟨(digit_ne_special ch hd).2.1, (digit_ne_special ch hd).2.2⟩

/-- Unfolded shape of the record fields. -/
theorem cookieFields_eq (c : CdpCookie) : cookieFields c =
    [c.domain.getD "", (if pyStartsWith (c.domain.getD "") "." then "TRUE" else "FALSE"),
     c.path.getD "/", (if c.secure.getD false then "TRUE" else "FALSE"),
     pyStrInt (expires_i c.expires), c.name.getD "", c.value.getD ""] := rfl

/-- Re-parsing one written record line yields exactly the expected
tuple. -/
theorem parse_cookieLine (c : CdpCookie) (hwf : wfCookie c) :
    parseCookieRecordLine (cookieLine c).data = some (expectedTuple c) := by
  have hfree : ∀ f ∈ cookieFields c, '\t' ∉ f.data := by
    rw [cookieFields_eq]
    intro f hf
    simp only [List.mem_cons, List.not_mem_nil, or_false] at hf
    rcases hf with rfl | rfl | rfl | rfl | rfl | rfl | rfl
    · intro hmem; exact (hwf.1 _ hmem).1 rfl
    · split <;> decide
    · intro hmem; exact (hwf.2.2.2.1 _ hmem).1 rfl
    · split <;> decide
    · intro hmem; exact (pyStrInt_no_ctl _ _ hmem).1 rfl
    · intro hmem; exact (hwf.2.1 _ hmem).1 rfl
    · intro hmem; exact (hwf.2.2.1 _ hmem).1 rfl
  have hne : cookieFields c ≠ [] := by rw [cookieFields_eq]; simp
  have hsplit := splitOnChar_pyJoin_tab (cookieFields c) hne hfree
  unfold cookieLine at hsplit ⊢
  unfold parseCookieRecordLine
  rw [hsplit, cookieFields_eq]
  simp only [List.map]
  rw [decToInt?_pyStrInt]
  simp only [strMk_data]
  cases hs : c.secure.getD false <;> cases hdot : pyStartsWith (c.domain.getD "") "." <;>
    simp [expectedTuple, hs, hdot]

/-- No record field contains a newline. -/
theorem cookieFields_no_nl (c : CdpCookie) (hwf : wfCookie c) :
    ∀ f ∈ cookieFields c, '\n' ∉ f.data := by
  rw [cookieFields_eq]
  intro f hf
  simp only [List.mem_cons, List.not_mem_nil, or_false] at hf
  rcases hf with rfl | rfl | rfl | rfl | rfl | rfl | rfl
  · intro hmem; exact (hwf.1 _ hmem).2 rfl
  · split <;> decide
  · intro hmem; exact (hwf.2.2.2.1 _ hmem).2 rfl
  · split <;> decide
  · intro hmem; exact (pyStrInt_no_ctl _ _ hmem).2 rfl
  · intro hmem; exact (hwf.2.1 _ hmem).2 rfl
  · intro hmem; exact (hwf.2.2.1 _ hmem).2 rfl

/-- A record line contains no newline. -/
theorem cookieLine_no_nl (c : CdpCookie) (hwf : wfCookie c) :
    '\n' ∉ (cookieLine c).data := by
  intro hmem
  rcases mem_pyJoin_data "\t" (cookieFields c) '\n' hmem with h | ⟨f, hf, hcf⟩
  · revert h; decide
  · exact cookieFields_no_nl c hwf f hf hcf

/-- A record line is nonempty and is not a comment line. -/
theorem cookieLine_head (c : CdpCookie) (hwf : wfCookie c) :
    (cookieLine c).data ≠ [] ∧ (cookieLine c).data.head? ≠ some '#' := by
  have hdata : (cookieLine c).data = (c.domain.getD "").data ++ '\t' ::
      (pyJoin "\t" ((cookieFields c).tail)).data := by
    rw [show cookieLine c =
        (c.domain.getD "") ++ "\t" ++ pyJoin "\t" ((cookieFields c).tail) from rfl,
      str_data_append, str_data_append, List.append_assoc]
    rfl
  rw [hdata]
  cases hdom : (c.domain.getD "").data with
  | nil => exact ⟨by simp, by simp⟩
  | cons d ds =>
    refine ⟨by simp, ?_⟩
    have hh := hwf.2.2.2.2
    rw [hdom] at hh
    simpa using hh

/-- Splitting the concatenated newline-terminated record lines recovers
the lines (with one trailing empty chunk). -/
theorem splitRecords (cookies : List CdpCookie) (hwf : ∀ c ∈ cookies, wfCookie c) :
    splitOnChar '\n' (pyConcat (cookies.map (fun c => cookieLine c ++ "\n"))).data =
      (cookies.map (fun c => (cookieLine c).data)) ++ [[]] := by
  induction cookies with
  | nil => rfl
  | cons c rest ih =>
    have hc : wfCookie c := hwf c (List.mem_cons_self c rest)
    have hrest : ∀ x ∈ rest, wfCookie x := fun x hx => hwf x (List.mem_cons_of_mem c hx)
    have hdata : (pyConcat ((c :: rest).map (fun x => cookieLine x ++ "\n"))).data =
        (cookieLine c).data ++ '\n' ::
        (pyConcat (rest.map (fun x => cookieLine x ++ "\n"))).data := by
      rw [show pyConcat ((c :: rest).map (fun x => cookieLine x ++ "\n")) =
          (cookieLine c ++ "\n") ++ pyConcat (rest.map (fun x => cookieLine x ++ "\n")) from rfl,
        str_data_append, str_data_append, List.append_assoc]
      rfl
    rw [hdata, splitOnChar_append '\n' _ _ (cookieLine_no_nl c hc), ih hrest]
    rfl

/-- Filtering and parsing the record lines (plus the trailing empty
chunk) yields exactly the expected tuples. -/
theorem parseRecordLines (cookies : List CdpCookie) (hwf : ∀ c ∈ cookies, wfCookie c) :
    ((cookies.map (fun c => (cookieLine c).data) ++ [[]]).filter
        (fun l => decide (l ≠ [] ∧ l.head? ≠ some '#'))).filterMap parseCookieRecordLine
      = cookies.map expectedTuple := by
  induction cookies with
  | nil => rfl
  | cons c rest ih =>
    have hc : wfCookie c := hwf c (List.mem_cons_self c rest)
    have hrest : ∀ x ∈ rest, wfCookie x := fun x hx => hwf x (List.mem_cons_of_mem c hx)
    obtain ⟨hne, hhash⟩ := cookieLine_head c hc
    have hpred : (fun l => decide (l ≠ [] ∧ l.head? ≠ some '#')) (cookieLine c).data = true := by
      simp [hne, hhash]
    rw [List.map_cons, List.cons_append, List.filter_cons, if_pos hpred,
      List.filterMap_cons, parse_cookieLine c hc, ih hrest, List.map_cons]

/-- Claim C7: for every list of well-formed cookie records (text fields
free of tabs and newlines, domain not opening a comment), re-parsing the
exporter's output file reproduces exactly the
`(domain, name, value, path, secure, expires-as-int, includeSubdomains)`
tuples, with `includeSubdomains` true iff the domain has a leading dot
and a missing, zero, or unparseable expiry normalized to `0`. -/
theorem cookie_roundtrip (cookies : List CdpCookie) (hwf : ∀ c ∈ cookies, wfCookie c) :
    parseNetscapeFile (cookieFileText cookies) = cookies.map expectedTuple := by
  unfold parseNetscapeFile
  have e1 : ("# Netscape HTTP Cookie File\n" : String).data =
      "# Netscape HTTP Cookie File".data ++ ['\n'] := by decide
  have e2 : ("# Exported via CDP (DevTools Protocol)\n\n" : String).data =
      "# Exported via CDP (DevTools Protocol)".data ++ ['\n', '\n'] := by decide
  have hdata : (cookieFileText cookies).data =
      "# Netscape HTTP Cookie File".data ++ '\n' ::
      ("# Exported via CDP (DevTools Protocol)".data ++ '\n' :: ([] ++ '\n' ::
       (pyConcat (cookies.map (fun c => cookieLine c ++ "\n"))).data)) := by
    rw [show cookieFileText cookies = "# Netscape HTTP Cookie File\n" ++
        ("# Exported via CDP (DevTools Protocol)\n\n" ++
         pyConcat (cookies.map (fun c => cookieLine c ++ "\n"))) from rfl,
      str_data_append, str_data_append, e1, e2, List.append_assoc, List.append_assoc]
    rfl
  rw [hdata,
    splitOnChar_append '\n' ("# Netscape HTTP Cookie File".data) _ (by decide),
    splitOnChar_append '\n' ("# Exported via CDP (DevTools Protocol)".data) _ (by decide),
    splitOnChar_append '\n' [] _ (by simp),
    splitRecords cookies hwf]
  rw [List.filter_cons, List.filter_cons, List.filter_cons,
    if_neg (by decide), if_neg (by decide), if_neg (by simp)]
  exact parseRecordLines cookies hwf

/-- A synthetic mixed cookie list: leading-dot domain with float expiry,
plain domain with missing expiry, zero expiry, unparseable expiry. -/
def demoCookies : List CdpCookie :=
  [⟨some ".douyin.com", some "sessionid", some "abc123", some "/", some true,
    .num (3400000001 / 2)⟩,
   ⟨some "www.douyin.com", some "ttwid", some "v2", none, none, .absent⟩,
   ⟨some ".douyin.com", some "zero", some "z", some "/", some false, .num 0⟩,
   ⟨some "x.douyin.com", some "odd", some "o", some "/p", some true, .unparseable⟩]

/-- Witness for C7 on the synthetic mixed list: the well-formedness
hypothesis holds and re-parsing the written file reproduces the expected
tuples. -/
theorem cookie_roundtrip_witness :
    (∀ c ∈ demoCookies, wfCookie c) ∧
    parseNetscapeFile (cookieFileText demoCookies) = demoCookies.map expectedTuple := by
  refine ⟨by decide, cookie_roundtrip demoCookies (by decide)⟩
